import Mathlib

/-!
Shallow embedding of the catalog-synchronization core of the image-gallery
repository (src/app/services/github.ts) together with theorems checking the
specification claims against it.

Modelling conventions:
* JavaScript strings are Lean `String`s, byte counts are `Nat`.
* A thrown JavaScript exception is modelled by the `JSError` type; a fallible
  step returns `Except JSError α`.
* Network calls are modelled by outcome values supplied in an environment
  record; each issued request is recorded in an operation trace (`List Op`).
* `JSON.parse ∘ atob` (an external library call) is modelled by an abstract
  function `parse : String → Option MetadataFile`, `none` meaning the parse
  threw.
-/

/-- `ImageMetadata` from src/app/types (part_001): one catalog record. -/
structure ImageMetadata where
  filename : String
  description : String
  url : String
  timestamp : String
  sha : Option String
deriving Repr, DecidableEq

/-- `MetadataFile` from src/app/types: the catalog document. -/
structure MetadataFile where
  images : List ImageMetadata
deriving Repr, DecidableEq

/-- `GitHubFileResponse` from src/app/types: content plus revision token
(`sha`) as returned by a contents GET. -/
structure GitHubFileResponse where
  content : String
  sha : String
  name : String
  path : String
  download_url : String
deriving Repr, DecidableEq

/-- The `response.data.content` part of a contents PUT response, of which the
source uses only `.sha` (github.ts line 138). -/
structure PutResponse where
  contentSha : String
deriving Repr, DecidableEq

/-- `UploadResult` from src/app/types. -/
structure UploadResult where
  success : Bool
  url : Option String
  error : Option String
deriving Repr, DecidableEq

/-- `DeleteResult` from src/app/types. -/
structure DeleteResult where
  success : Bool
  error : Option String
deriving Repr, DecidableEq

/-- The configuration read by `getConfig` (github.ts lines 7-17); the token
itself never influences the modelled control flow, so only `repo` and
`branch` are kept. -/
structure GitHubConfig where
  repo : String
  branch : String
deriving Repr, DecidableEq

/-- A JavaScript error value as discriminated by `getErrorMessage`
(github.ts lines 231-252): an axios error with optional HTTP status and
optional structured body message, a plain `Error`, or anything else. -/
inductive JSError where
  | axios (status : Option Nat) (dataMessage : Option String) (message : String)
  | jsError (message : String)
  | other
deriving Repr, DecidableEq

/-- The error thrown by `getConfig` when environment variables are missing
(github.ts line 13). -/
def configMissingError : JSError :=
  JSError.jsError "Missing required environment variables: VITE_GITHUB_TOKEN and VITE_GITHUB_REPO"

/-- `getErrorMessage` (github.ts lines 231-252). The JavaScript
`axiosError.response?.data?.message || axiosError.message` treats the empty
string as falsy, hence the explicit empty-string test. -/
def getErrorMessage : JSError → String
  | JSError.axios status dataMessage message =>
    if status = some 401 then
      "Authentication failed. Please check your GitHub token."
    else if status = some 403 then
      "Access denied. Your token may lack the required permissions."
    else if status = some 404 then
      "Repository not found. Please check the repository name."
    else if status = some 422 then
      "File already exists or invalid request."
    else
      match dataMessage with
      | some m => if m = "" then message else m
      | none => message
  | JSError.jsError message => message
  | JSError.other => "An unexpected error occurred."

/-- The character class `[a-zA-Z0-9.-]` of the sanitization regex
(github.ts line 104). -/
def isAllowedFilenameChar (c : Char) : Bool :=
  ('a' ≤ c && c ≤ 'z') || ('A' ≤ c && c ≤ 'Z') || ('0' ≤ c && c ≤ '9') ||
  c = '.' || c = '-'

/-- `file.name.replace(/[^a-zA-Z0-9.-]/g, _)` with an underscore replacement
(github.ts line 104): every character outside the class becomes an
underscore. -/
def sanitizeFileName (name : String) : String :=
  String.mk (name.data.map (fun c => if isAllowedFilenameChar c then c else '_'))

/-- The generated filename `Date.now() + underscore + sanitizedName`
(github.ts line 105); `nowMillis` stands for `Date.now()`. -/
def uploadFilename (nowMillis : Nat) (name : String) : String :=
  toString nowMillis ++ "_" ++ sanitizeFileName name

/-- `getGitHubUrl` (github.ts lines 33-36). -/
def getGitHubUrl (cfg : GitHubConfig) (filename : String) : String :=
  "https://github.com/" ++ cfg.repo ++ "/blob/" ++ cfg.branch ++ "/images/" ++ filename ++ "?raw=true"

/-- The catalog mutation performed by upload: `metadata.images.unshift(newImage)`
(github.ts line 140) prepends the new entry. -/
def prependEntry (images : List ImageMetadata) (entry : ImageMetadata) : List ImageMetadata :=
  entry :: images

/-- The catalog mutation performed by delete:
`metadata.images.filter((img) => img.filename !== image.filename)`
(github.ts line 197). -/
def removeByFilename (images : List ImageMetadata) (filename : String) : List ImageMetadata :=
  images.filter (fun img => img.filename != filename)

/-- The file value passed to `validateImageFile` and `uploadImage`: the used
fields of a browser `File`. -/
structure JSFile where
  name : String
  mimeType : String
  size : Nat
deriving Repr, DecidableEq

/-- The allowed MIME types of `validateImageFile` (github.ts line 256). -/
def allowedTypes : List String := ["image/jpeg", "image/png", "image/gif"]

/-- The size threshold of `validateImageFile` (github.ts line 257). -/
def maxSize : Nat := 10 * 1024 * 1024

/-- The `{ valid: boolean; error?: string }` result of `validateImageFile`. -/
structure ValidationResult where
  valid : Bool
  error : Option String
deriving Repr, DecidableEq

/-- `validateImageFile` (github.ts lines 255-274); `file.type` is the
`mimeType` field of the model. -/
def validateImageFile (file : JSFile) : ValidationResult :=
  if !(allowedTypes.contains file.mimeType) then
    { valid := false,
      error := some "Invalid file type. Please upload a JPG, PNG, or GIF image." }
  else if file.size > maxSize then
    { valid := false,
      error := some "File size exceeds 10MB limit. Please choose a smaller image." }
  else
    { valid := true, error := none }

/-- The raw outcome of one HTTP request issued through the axios client:
either a response value or a thrown error. -/
inductive HttpOutcome where
  | ok (f : GitHubFileResponse)
  | err (e : JSError)
deriving Repr, DecidableEq

/-- The test `axios.isAxiosError(error) && error.response?.status === 404`
of `fetchFile` (github.ts line 47). -/
def isNotFoundError : JSError → Bool
  | JSError.axios (some 404) _ _ => true
  | _ => false

/-- `fetchFile` (github.ts lines 39-52): a 404 axios error becomes the
`none` sentinel, every other error is re-raised, a response is returned. -/
def fetchFile (outcome : HttpOutcome) : Except JSError (Option GitHubFileResponse) :=
  match outcome with
  | HttpOutcome.ok f => Except.ok (some f)
  | HttpOutcome.err e => if isNotFoundError e then Except.ok none else Except.error e

/-- `fetchMetadata` (github.ts lines 55-67): any failure of `fetchFile` or of
the decode is caught and replaced by the empty catalog; an absent file also
yields the empty catalog. `parse` models `JSON.parse ∘ atob` applied to the
fetched content, `none` meaning it threw. -/
def fetchMetadata (outcome : HttpOutcome) (parse : String → Option MetadataFile) :
    MetadataFile :=
  match fetchFile outcome with
  | Except.error _ => { images := [] }
  | Except.ok none => { images := [] }
  | Except.ok (some file) =>
    match parse file.content with
    | some metadata => metadata
    | none => { images := [] }

/-- The decode inside `uploadImage` (github.ts lines 122-131): start from the
empty catalog, and when a metadata file exists, replace it by the parsed
content unless parsing throws. -/
def uploadDecodeMetadata (parse : String → Option MetadataFile)
    (existingFile : Option GitHubFileResponse) : MetadataFile :=
  match existingFile with
  | none => { images := [] }
  | some file =>
    match parse file.content with
    | some metadata => metadata
    | none => { images := [] }

/-- The decode inside `deleteImage` (github.ts lines 188-194): parse the
fetched catalog content, falling back to the empty catalog if parsing
throws. -/
def deleteDecodeMetadata (parse : String → Option MetadataFile)
    (metadataFile : GitHubFileResponse) : MetadataFile :=
  match parse metadataFile.content with
  | some metadata => metadata
  | none => { images := [] }

/-- One issued store request, as recorded in an operation trace.
`writeCatalog` records the revision token passed as precondition and the
catalog value written. -/
inductive Op where
  | fetchBlob (path : String)
  | writeBlob (path : String)
  | deleteBlob (path : String)
  | fetchCatalog
  | writeCatalog (sha : Option String) (content : MetadataFile)
deriving Repr, DecidableEq

/-- Recognizes a catalog fetch in a trace. -/
def isCatalogFetch : Op → Bool
  | Op.fetchCatalog => true
  | _ => false

/-- Recognizes a catalog write in a trace. -/
def isCatalogWrite : Op → Bool
  | Op.writeCatalog _ _ => true
  | _ => false

/-- Number of catalog fetches issued in a trace. -/
def countCatalogFetches (trace : List Op) : Nat := trace.countP (fun op => isCatalogFetch op)

/-- Number of catalog writes issued in a trace. -/
def countCatalogWrites (trace : List Op) : Nat := trace.countP (fun op => isCatalogWrite op)

/-- The revision token obtained from a catalog fetch outcome: the `sha` of
the response when the resource exists, nothing when it is absent or the
fetch failed. -/
def fetchedSha (outcome : HttpOutcome) : Option String :=
  match fetchFile outcome with
  | Except.ok (some f) => some f.sha
  | _ => none

/-- The catalog synchronization step of `uploadImage` (github.ts lines
120-148): one fetch of `metadata.json`, decode, prepend the new entry, one
write passing `existingMetadataFile?.sha`. Returns the step outcome and the
requests it issued; a non-404 fetch failure or a write failure aborts the
step with that error. -/
def uploadCatalogSync (catalogFetch : HttpOutcome) (parse : String → Option MetadataFile)
    (catalogPut : Except JSError PutResponse) (newImage : ImageMetadata) :
    Except JSError MetadataFile × List Op :=
  match fetchFile catalogFetch with
  | Except.error e => (Except.error e, [Op.fetchCatalog])
  | Except.ok existingFile =>
    let metadata := uploadDecodeMetadata parse existingFile
    let newMetadata : MetadataFile := { images := prependEntry metadata.images newImage }
    let sha := Option.map GitHubFileResponse.sha existingFile
    match catalogPut with
    | Except.error e => (Except.error e, [Op.fetchCatalog, Op.writeCatalog sha newMetadata])
    | Except.ok _ => (Except.ok newMetadata, [Op.fetchCatalog, Op.writeCatalog sha newMetadata])

/-- The catalog synchronization step of `deleteImage` (github.ts lines
179-205): one fetch of `metadata.json`; when the file is absent the step
succeeds with nothing to update and no write; otherwise decode, filter out
the filename, one write passing `metadataFile.sha`. -/
def deleteCatalogSync (catalogFetch : HttpOutcome) (parse : String → Option MetadataFile)
    (catalogPut : Except JSError PutResponse) (filename : String) :
    Except JSError Unit × List Op :=
  match fetchFile catalogFetch with
  | Except.error e => (Except.error e, [Op.fetchCatalog])
  | Except.ok none => (Except.ok (), [Op.fetchCatalog])
  | Except.ok (some metadataFile) =>
    let metadata := deleteDecodeMetadata parse metadataFile
    let newMetadata : MetadataFile := { images := removeByFilename metadata.images filename }
    match catalogPut with
    | Except.error e =>
      (Except.error e, [Op.fetchCatalog, Op.writeCatalog (some metadataFile.sha) newMetadata])
    | Except.ok _ =>
      (Except.ok (), [Op.fetchCatalog, Op.writeCatalog (some metadataFile.sha) newMetadata])

/-- Environment of one `uploadImage` invocation: the configuration (absent
when `getConfig` throws), `Date.now()`, `new Date().toISOString()`, and the
outcome of each awaited step in source order. -/
structure UploadEnv where
  config : Option GitHubConfig
  nowMillis : Nat
  isoTimestamp : String
  fileRead : Except JSError String
  blobPut : Except JSError PutResponse
  catalogFetch : HttpOutcome
  parse : String → Option MetadataFile
  catalogPut : Except JSError PutResponse

/-- `uploadImage` (github.ts lines 94-156): generate the filename, read the
file, write the blob, synchronize the catalog; every thrown error is caught
at the boundary and converted through `getErrorMessage`. The second
component is the trace of issued store requests. -/
def uploadImage (env : UploadEnv) (file : JSFile) (description : String) :
    UploadResult × List Op :=
  match env.config with
  | none =>
    ({ success := false, url := none, error := some (getErrorMessage configMissingError) }, [])
  | some cfg =>
    let filename := uploadFilename env.nowMillis file.name
    let path := "images/" ++ filename
    match env.fileRead with
    | Except.error e =>
      ({ success := false, url := none, error := some (getErrorMessage e) }, [])
    | Except.ok _base64 =>
      match env.blobPut with
      | Except.error e =>
        ({ success := false, url := none, error := some (getErrorMessage e) }, [Op.writeBlob path])
      | Except.ok uploadResp =>
        let imageUrl := getGitHubUrl cfg filename
        let newImage : ImageMetadata :=
          { filename := filename, description := description, url := imageUrl,
            timestamp := env.isoTimestamp, sha := some uploadResp.contentSha }
        let sync := uploadCatalogSync env.catalogFetch env.parse env.catalogPut newImage
        match sync.1 with
        | Except.error e =>
          ({ success := false, url := none, error := some (getErrorMessage e) },
            Op.writeBlob path :: sync.2)
        | Except.ok _ =>
          ({ success := true, url := some imageUrl, error := none },
            Op.writeBlob path :: sync.2)

/-- Environment of one `deleteImage` invocation: the configuration and the
outcome of each awaited step in source order. -/
structure DeleteEnv where
  config : Option GitHubConfig
  blobFetch : HttpOutcome
  blobDelete : Except JSError Unit
  catalogFetch : HttpOutcome
  parse : String → Option MetadataFile
  catalogPut : Except JSError PutResponse

/-- `deleteImage` (github.ts lines 159-213): look up the blob, delete it only
when present, then synchronize the catalog; every thrown error is caught at
the boundary and converted through `getErrorMessage`. The second component
is the trace of issued store requests. -/
def deleteImage (env : DeleteEnv) (image : ImageMetadata) : DeleteResult × List Op :=
  match env.config with
  | none => ({ success := false, error := some (getErrorMessage configMissingError) }, [])
  | some _cfg =>
    let imagePath := "images/" ++ image.filename
    match fetchFile env.blobFetch with
    | Except.error e =>
      ({ success := false, error := some (getErrorMessage e) }, [Op.fetchBlob imagePath])
    | Except.ok none =>
      let sync := deleteCatalogSync env.catalogFetch env.parse env.catalogPut image.filename
      (match sync.1 with
       | Except.error e => { success := false, error := some (getErrorMessage e) }
       | Except.ok _ => { success := true, error := none },
       Op.fetchBlob imagePath :: sync.2)
    | Except.ok (some _imageFile) =>
      match env.blobDelete with
      | Except.error e =>
        ({ success := false, error := some (getErrorMessage e) },
          [Op.fetchBlob imagePath, Op.deleteBlob imagePath])
      | Except.ok _ =>
        let sync := deleteCatalogSync env.catalogFetch env.parse env.catalogPut image.filename
        (match sync.1 with
         | Except.error e => { success := false, error := some (getErrorMessage e) }
         | Except.ok _ => { success := true, error := none },
         Op.fetchBlob imagePath :: Op.deleteBlob imagePath :: sync.2)

/-- The regular-expression class `^[A-Za-z0-9.-]*$` of the spec, as a test
on a whole string. -/
def matchesFilenameClass (s : String) : Bool := s.data.all isAllowedFilenameChar

/-- Stripping the epoch-milliseconds prefix and the separating underscore
from a generated filename. -/
def stripTimestampPrefix (nowMillis : Nat) (s : String) : String :=
  String.mk (s.data.drop ((toString nowMillis).data.length + 1))

/-- Filtering out a filename that occurs in no entry keeps every entry. -/
lemma removeByFilename_eq_self (C : List ImageMetadata) (f : String)
    (h : f ∉ C.map ImageMetadata.filename) : removeByFilename C f = C := by
  rw [removeByFilename, List.filter_eq_self]
  intro a ha
  simp only [bne_iff_ne, ne_eq]
  intro hEq
  exact h (hEq ▸ List.mem_map_of_mem ImageMetadata.filename ha)

/-- C1: for every catalog `C` and entry `E` whose filename does not occur in
`C`, removing `E.filename` from the catalog obtained by prepending `E`
(the upload mutation, `unshift`) via the delete mutation (`filter` on
filename inequality) yields `C` again. -/
theorem upload_delete_roundtrip : ∀ (C : List ImageMetadata) (E : ImageMetadata),
    E.filename ∉ C.map ImageMetadata.filename →
    removeByFilename (prependEntry C E) E.filename = C := by
  intro C E h
  simp only [removeByFilename, prependEntry, List.filter_cons, bne_self_eq_false,
    Bool.false_eq_true, if_false]
  rw [← removeByFilename]
  exact removeByFilename_eq_self C E.filename h

/-- C1 witness: the round-trip theorem applied to a concrete catalog and
entry. -/
theorem upload_delete_roundtrip_witness :
    removeByFilename
      (prependEntry [{ filename := "1_a.png", description := "a", url := "u",
                       timestamp := "t", sha := none }]
        { filename := "2_b.png", description := "b", url := "v", timestamp := "s", sha := none })
      "2_b.png" =
      [{ filename := "1_a.png", description := "a", url := "u", timestamp := "t", sha := none }] :=
  upload_delete_roundtrip _ _ (by decide)

/-- C4: deleting a filename that occurs in no entry is a no-op on the
catalog value, and the delete orchestrator still reports success and writes
the catalog back unchanged. -/
theorem delete_absent_filename_noop :
    (∀ (C : List ImageMetadata) (f : String),
      f ∉ C.map ImageMetadata.filename → removeByFilename C f = C) ∧
    (∀ (env : DeleteEnv) (image : ImageMetadata) (cfg : GitHubConfig)
        (metadataFile : GitHubFileResponse) (metadata : MetadataFile) (pr : PutResponse),
      env.config = some cfg →
      fetchFile env.blobFetch = Except.ok none →
      fetchFile env.catalogFetch = Except.ok (some metadataFile) →
      env.parse metadataFile.content = some metadata →
      image.filename ∉ metadata.images.map ImageMetadata.filename →
      env.catalogPut = Except.ok pr →
      (deleteImage env image).1 = { success := true, error := none } ∧
      Op.writeCatalog (some metadataFile.sha) metadata ∈ (deleteImage env image).2) := by
  constructor
  · exact fun C f h => removeByFilename_eq_self C f h
  · intro env image cfg metadataFile metadata pr hcfg hblob hcat hparse hmem hput
    have hnoop : removeByFilename metadata.images image.filename = metadata.images :=
      removeByFilename_eq_self _ _ hmem
    have hsync : deleteCatalogSync env.catalogFetch env.parse env.catalogPut image.filename
        = (Except.ok (), [Op.fetchCatalog, Op.writeCatalog (some metadataFile.sha) metadata]) := by
      rw [deleteCatalogSync, hcat, hput]
      simp [deleteDecodeMetadata, hparse, hnoop]
    simp [deleteImage, hcfg, hblob, hsync]

/-- A concrete catalog entry used as test fixture. -/
def sampleEntryA : ImageMetadata :=
  { filename := "1_a.png", description := "d", url := "u", timestamp := "t", sha := none }

/-- A concrete image argument used as test fixture. -/
def sampleImageB : ImageMetadata :=
  { filename := "2_b.png", description := "", url := "", timestamp := "", sha := none }

/-- A concrete one-entry catalog used as test fixture. -/
def sampleCatalog : MetadataFile := { images := [sampleEntryA] }

/-- A concrete catalog-resource response used as test fixture. -/
def sampleCatalogFile : GitHubFileResponse :=
  { content := "c", sha := "sha0", name := "metadata.json",
    path := "metadata.json", download_url := "d" }

/-- A concrete 404 axios error used as test fixture. -/
def notFound404 : JSError := JSError.axios (some 404) none "not found"

/-- A concrete delete environment used as test fixture: blob absent, catalog
present with one entry, all requests succeeding. -/
def sampleDeleteEnv : DeleteEnv :=
  { config := some { repo := "r", branch := "main" },
    blobFetch := HttpOutcome.err notFound404,
    blobDelete := Except.ok (),
    catalogFetch := HttpOutcome.ok sampleCatalogFile,
    parse := fun _ => some sampleCatalog,
    catalogPut := Except.ok { contentSha := "sha1" } }

/-- C4 witness: the theorem applied to a concrete environment whose catalog
holds one entry and a delete request for a different filename. -/
theorem delete_absent_filename_noop_witness :
    (deleteImage sampleDeleteEnv sampleImageB).1 = { success := true, error := none } :=
  (delete_absent_filename_noop.2 sampleDeleteEnv sampleImageB { repo := "r", branch := "main" }
    sampleCatalogFile sampleCatalog { contentSha := "sha1" }
    rfl rfl rfl rfl (by decide) rfl).1

/-- C5: starting from a catalog with pairwise distinct filenames, the upload
mutation (prepending an entry carrying a freshly generated
timestamp-prefixed filename, i.e. one not already present) and the delete
mutation (filtering out one filename) both keep the filenames pairwise
distinct. -/
theorem filename_uniqueness_invariant :
    ∀ (C : List ImageMetadata) (nowMillis : Nat)
      (name description url timestamp blobSha f : String),
      (C.map ImageMetadata.filename).Nodup →
      ((uploadFilename nowMillis name ∉ C.map ImageMetadata.filename →
        ((prependEntry C
            { filename := uploadFilename nowMillis name, description := description,
              url := url, timestamp := timestamp, sha := some blobSha }).map
          ImageMetadata.filename).Nodup) ∧
       ((removeByFilename C f).map ImageMetadata.filename).Nodup) := by
  intro C nowMillis name description url timestamp blobSha f hnodup
  constructor
  · intro hfresh
    simp only [prependEntry, List.map_cons, List.nodup_cons]
    exact ⟨hfresh, hnodup⟩
  · rw [removeByFilename]
    exact List.Nodup.sublist ((C.filter_sublist).map ImageMetadata.filename) hnodup

/-- C5 witness: the invariant theorem applied to a one-entry catalog, a
fresh upload and a delete. -/
theorem filename_uniqueness_invariant_witness :
    ((prependEntry [sampleEntryA]
      { filename := uploadFilename 2 "b.png", description := "e", url := "v",
        timestamp := "s", sha := some "sh" }).map ImageMetadata.filename).Nodup ∧
    ((removeByFilename [sampleEntryA] "1_a.png").map ImageMetadata.filename).Nodup :=
  ⟨(filename_uniqueness_invariant [sampleEntryA] 2 "b.png" "e" "v" "s" "sh" "1_a.png"
      (by decide)).1 (by decide),
   (filename_uniqueness_invariant [sampleEntryA] 2 "b.png" "e" "v" "s" "sh" "1_a.png"
      (by decide)).2⟩

/-- C8 counterexample: for the original name with a space, the generated
filename stripped of its epoch-milliseconds prefix and separating
underscore still holds the replacement underscore, which is outside the
class `[A-Za-z0-9.-]`, so it does not match the regular expression of the
claim. -/
theorem sanitize_spec_class_counterexample :
    stripTimestampPrefix 1700000000000 (uploadFilename 1700000000000 "a b.png") = "a_b.png" ∧
    matchesFilenameClass "a_b.png" = false := by
  constructor
  · rfl
  · decide

/-- C8 amended: sanitization replaces every character outside `[A-Za-z0-9.-]`
with an underscore, so the generated filename, stripped of its
epoch-milliseconds prefix and the separating underscore, matches
the extended class `^[A-Za-z0-9._-]*$` (the original class plus the
underscore replacement character). -/
theorem sanitize_extended_class :
    ∀ (nowMillis : Nat) (name : String),
      stripTimestampPrefix nowMillis (uploadFilename nowMillis name) = sanitizeFileName name ∧
      ((sanitizeFileName name).data.all
        (fun c => isAllowedFilenameChar c || c = '_')) = true := by
  intro n name
  constructor
  · have hdata : (uploadFilename n name).data
        = ((toString n).data ++ ['_']) ++ (sanitizeFileName name).data := by
      simp [uploadFilename, String.data_append]
    have hlen : ((toString n).data ++ ['_']).length = (toString n).data.length + 1 := by
      simp
    rw [stripTimestampPrefix, hdata, ← hlen, List.drop_left]
  · apply List.all_eq_true.mpr
    intro x hx
    have hmem : x ∈ name.data.map (fun c => if isAllowedFilenameChar c then c else '_') := hx
    simp only [List.mem_map] at hmem
    obtain ⟨c, -, rfl⟩ := hmem
    by_cases h : isAllowedFilenameChar c
    · simp [h]
    · simp [h]

/-- C9: `validateImageFile` accepts a file exactly when its declared MIME
type is one of the three image formats and its size does not exceed
`10 * 1024 * 1024` bytes; when the type is not allowed the type message is
reported, regardless of size (the type condition is checked first). -/
theorem validateImageFile_correct :
    ∀ (file : JSFile),
      ((validateImageFile file).valid = true ↔
        (file.mimeType = "image/jpeg" ∨ file.mimeType = "image/png" ∨
          file.mimeType = "image/gif") ∧ file.size ≤ 10 * 1024 * 1024) ∧
      (¬(file.mimeType = "image/jpeg" ∨ file.mimeType = "image/png" ∨
          file.mimeType = "image/gif") →
        (validateImageFile file).error =
          some "Invalid file type. Please upload a JPG, PNG, or GIF image.") ∧
      ((file.mimeType = "image/jpeg" ∨ file.mimeType = "image/png" ∨
          file.mimeType = "image/gif") →
        file.size > 10 * 1024 * 1024 →
        (validateImageFile file).error =
          some "File size exceeds 10MB limit. Please choose a smaller image.") := by
  intro file
  by_cases ht : file.mimeType ∈ allowedTypes
  · have hd : file.mimeType = "image/jpeg" ∨ file.mimeType = "image/png" ∨
        file.mimeType = "image/gif" := by
      simpa [allowedTypes] using ht
    refine ⟨?_, fun hnot => absurd hd hnot, fun _ hsz => ?_⟩
    · by_cases hs : file.size > maxSize
      · simp only [maxSize] at hs
        simp [validateImageFile, ht, hs, maxSize]
      · simp only [maxSize] at hs
        simp [validateImageFile, ht, hs, maxSize]
        exact ⟨hd, by omega⟩
    · have hs : maxSize < file.size := by simpa [maxSize] using hsz
      simp [validateImageFile, ht, hs]
  · have hnd : ¬(file.mimeType = "image/jpeg" ∨ file.mimeType = "image/png" ∨
        file.mimeType = "image/gif") := fun hdisj => ht (by simpa [allowedTypes] using hdisj)
    refine ⟨?_, fun _ => by simp [validateImageFile, ht], fun hdisj _ => absurd hdisj hnd⟩
    simp [validateImageFile, ht]
    rintro (hd | hd | hd) <;> exact (ht (by simp [allowedTypes, hd])).elim

/-- C9 witness: the theorem applied to a file of a disallowed type and to an
oversized file of an allowed type. -/
theorem validateImageFile_correct_witness :
    (validateImageFile { name := "f.txt", mimeType := "text/plain", size := 5 }).error =
      some "Invalid file type. Please upload a JPG, PNG, or GIF image." ∧
    (validateImageFile { name := "big.png", mimeType := "image/png", size := 10485761 }).error =
      some "File size exceeds 10MB limit. Please choose a smaller image." :=
  ⟨(validateImageFile_correct { name := "f.txt", mimeType := "text/plain", size := 5 }).2.1
    (by decide),
   (validateImageFile_correct { name := "big.png", mimeType := "image/png", size := 10485761 }).2.2
    (by decide) (by decide)⟩

/-- C3: whenever the catalog content fails to parse, each of the three
decode sites — `fetchMetadata`, the decode inside `uploadImage` and the
decode inside `deleteImage` — yields the empty catalog instead of
propagating the failure. -/
theorem decode_malformed_yields_empty :
    ∀ (parse : String → Option MetadataFile) (file : GitHubFileResponse),
      parse file.content = none →
      fetchMetadata (HttpOutcome.ok file) parse = { images := [] } ∧
      uploadDecodeMetadata parse (some file) = { images := [] } ∧
      deleteDecodeMetadata parse file = { images := [] } := by
  intro parse file h
  refine ⟨?_, ?_, ?_⟩ <;>
    simp [fetchMetadata, fetchFile, uploadDecodeMetadata, deleteDecodeMetadata, h]

/-- C3 witness: the decode theorem applied to a parse function that always
fails (a content byte string that is not valid JSON). -/
theorem decode_malformed_yields_empty_witness :
    fetchMetadata (HttpOutcome.ok sampleCatalogFile) (fun _ => none) = { images := [] } ∧
    uploadDecodeMetadata (fun _ => none) (some sampleCatalogFile) = { images := [] } ∧
    deleteDecodeMetadata (fun _ => none) sampleCatalogFile = { images := [] } :=
  decode_malformed_yields_empty (fun _ => none) sampleCatalogFile rfl

/-- C10: for every error raised by the underlying catalog fetch — the 404
sentinel case as well as authorization and transport errors that
`fetchFile` re-raises — `fetchMetadata` returns the empty catalog rather
than propagating the failure; being a total function of its inputs, it
never throws. -/
theorem fetchMetadata_never_propagates :
    ∀ (e : JSError) (parse : String → Option MetadataFile),
      fetchMetadata (HttpOutcome.err e) parse = { images := [] } := by
  intro e parse
  by_cases h : isNotFoundError e = true <;> simp [fetchMetadata, fetchFile, h]

/-- C7: the upload and delete orchestrators always return a result value:
whichever step outcomes the environment supplies, the result is either a
success or a failure record whose message comes from `getErrorMessage`
applied to the raised error. -/
theorem orchestrators_return_result :
    ∀ (envU : UploadEnv) (file : JSFile) (description : String)
      (envD : DeleteEnv) (image : ImageMetadata),
      ((uploadImage envU file description).1.success = true ∨
        ∃ e : JSError, (uploadImage envU file description).1 =
          { success := false, url := none, error := some (getErrorMessage e) }) ∧
      ((deleteImage envD image).1.success = true ∨
        ∃ e : JSError, (deleteImage envD image).1 =
          { success := false, error := some (getErrorMessage e) }) := by
  intro envU file description envD image
  constructor
  · simp only [uploadImage]
    split
    · exact Or.inr ⟨configMissingError, rfl⟩
    · split
      · rename_i e _
        exact Or.inr ⟨e, rfl⟩
      · split
        · rename_i e _
          exact Or.inr ⟨e, rfl⟩
        · split
          · rename_i e _
            exact Or.inr ⟨e, rfl⟩
          · exact Or.inl rfl
  · simp only [deleteImage]
    split
    · exact Or.inr ⟨configMissingError, rfl⟩
    · split
      · rename_i e _
        exact Or.inr ⟨e, rfl⟩
      · split
        · rename_i e _
          exact Or.inr ⟨e, rfl⟩
        · exact Or.inl rfl
      · split
        · rename_i e _
          exact Or.inr ⟨e, rfl⟩
        · split
          · rename_i e _
            exact Or.inr ⟨e, rfl⟩
          · exact Or.inl rfl

/-- The catalog synchronization step of delete never issues a blob
deletion request. -/
lemma deleteCatalogSync_no_deleteBlob (cf : HttpOutcome)
    (parse : String → Option MetadataFile) (cp : Except JSError PutResponse)
    (fn p : String) :
    Op.deleteBlob p ∉ (deleteCatalogSync cf parse cp fn).2 := by
  rcases hf : fetchFile cf with e | _ | f <;>
    rcases cp with e2 | pr <;>
    simp [deleteCatalogSync, hf]

/-- C6: when the blob lookup reports the not-found sentinel, `deleteImage`
issues no blob deletion request, and still returns success once the catalog
synchronization completes (whether the catalog resource is absent or is
fetched and written back successfully). -/
theorem delete_skips_absent_blob :
    ∀ (env : DeleteEnv) (image : ImageMetadata) (cfg : GitHubConfig),
      env.config = some cfg →
      fetchFile env.blobFetch = Except.ok none →
      (∀ p, Op.deleteBlob p ∉ (deleteImage env image).2) ∧
      (fetchFile env.catalogFetch = Except.ok none →
        (deleteImage env image).1 = { success := true, error := none }) ∧
      (∀ (metadataFile : GitHubFileResponse) (pr : PutResponse),
        fetchFile env.catalogFetch = Except.ok (some metadataFile) →
        env.catalogPut = Except.ok pr →
        (deleteImage env image).1 = { success := true, error := none }) := by
  intro env image cfg hcfg hblob
  refine ⟨?_, ?_, ?_⟩
  · intro p
    simp only [deleteImage, hcfg, hblob]
    intro hmem
    rcases List.mem_cons.mp hmem with h | h
    · exact Op.noConfusion h
    · exact deleteCatalogSync_no_deleteBlob env.catalogFetch env.parse env.catalogPut
        image.filename p h
  · intro hcat
    have hsync : deleteCatalogSync env.catalogFetch env.parse env.catalogPut image.filename
        = (Except.ok (), [Op.fetchCatalog]) := by
      simp [deleteCatalogSync, hcat]
    simp [deleteImage, hcfg, hblob, hsync]
  · intro metadataFile pr hcat hput
    have hsync1 : (deleteCatalogSync env.catalogFetch env.parse env.catalogPut
        image.filename).1 = Except.ok () := by
      simp [deleteCatalogSync, hcat, hput]
    simp [deleteImage, hcfg, hblob, hsync1]

/-- C6 witness: the theorem applied to a concrete environment with an
absent blob and a present catalog. -/
theorem delete_skips_absent_blob_witness :
    (∀ p, Op.deleteBlob p ∉ (deleteImage sampleDeleteEnv sampleImageB).2) ∧
    (deleteImage sampleDeleteEnv sampleImageB).1 = { success := true, error := none } :=
  ⟨(delete_skips_absent_blob sampleDeleteEnv sampleImageB { repo := "r", branch := "main" }
      rfl rfl).1,
   (delete_skips_absent_blob sampleDeleteEnv sampleImageB { repo := "r", branch := "main" }
      rfl rfl).2.2 sampleCatalogFile { contentSha := "sha1" } rfl rfl⟩

/-- A concrete delete environment in which both the blob and the catalog
resource are absent (404 on both lookups). -/
def absentCatalogEnv : DeleteEnv :=
  { config := some { repo := "r", branch := "main" },
    blobFetch := HttpOutcome.err notFound404,
    blobDelete := Except.ok (),
    catalogFetch := HttpOutcome.err notFound404,
    parse := fun _ => none,
    catalogPut := Except.ok { contentSha := "sha1" } }

/-- C2 counterexample: a delete invocation whose catalog resource is absent
succeeds while issuing zero catalog writes, refuting that every successful
operation issues exactly one catalog write. -/
theorem catalog_sync_write_counterexample :
    (deleteImage absentCatalogEnv sampleImageB).1.success = true ∧
    countCatalogWrites (deleteImage absentCatalogEnv sampleImageB).2 = 0 := by
  constructor <;> rfl

/-- C2 amended: each invocation of the catalog synchronization step inside
upload or delete issues exactly one catalog fetch; on success, upload
issues exactly one catalog write, while delete issues exactly one unless
the catalog resource is absent, in which case it issues none and still
succeeds; every issued write passes the revision token obtained from that
same fetch; and when the write fails (for example on a stale token) the
step fails outright with the single fetch and the single failed write
already issued — no re-fetch and no retry. -/
theorem catalog_sync_single_fetch_single_write :
    ∀ (cf : HttpOutcome) (parse : String → Option MetadataFile)
      (cp : Except JSError PutResponse) (ni : ImageMetadata) (fn : String),
      countCatalogFetches (uploadCatalogSync cf parse cp ni).2 = 1 ∧
      countCatalogFetches (deleteCatalogSync cf parse cp fn).2 = 1 ∧
      (∀ m, (uploadCatalogSync cf parse cp ni).1 = Except.ok m →
        countCatalogWrites (uploadCatalogSync cf parse cp ni).2 = 1) ∧
      ((deleteCatalogSync cf parse cp fn).1 = Except.ok () →
        (fetchFile cf = Except.ok none →
          countCatalogWrites (deleteCatalogSync cf parse cp fn).2 = 0) ∧
        (∀ f, fetchFile cf = Except.ok (some f) →
          countCatalogWrites (deleteCatalogSync cf parse cp fn).2 = 1)) ∧
      (∀ sha c, Op.writeCatalog sha c ∈ (uploadCatalogSync cf parse cp ni).2 →
        sha = fetchedSha cf) ∧
      (∀ sha c, Op.writeCatalog sha c ∈ (deleteCatalogSync cf parse cp fn).2 →
        sha = fetchedSha cf) ∧
      (∀ (e : JSError) (o : Option GitHubFileResponse),
        cp = Except.error e → fetchFile cf = Except.ok o →
        (uploadCatalogSync cf parse cp ni).1 = Except.error e ∧
        countCatalogWrites (uploadCatalogSync cf parse cp ni).2 = 1) ∧
      (∀ (e : JSError) (f : GitHubFileResponse),
        cp = Except.error e → fetchFile cf = Except.ok (some f) →
        (deleteCatalogSync cf parse cp fn).1 = Except.error e ∧
        countCatalogWrites (deleteCatalogSync cf parse cp fn).2 = 1) := by
  intro cf parse cp ni fn
  rcases hf : fetchFile cf with e | _ | f <;>
    rcases hc : cp with e2 | pr <;>
    simp [uploadCatalogSync, deleteCatalogSync, countCatalogFetches, countCatalogWrites,
      fetchedSha, isCatalogFetch, isCatalogWrite, hf]

/-- C2 witness: the amended theorem applied to a concrete absent-catalog
delete (zero writes on success) and to a concrete upload whose catalog
write fails (the failure propagates out of the step). -/
theorem catalog_sync_single_fetch_single_write_witness :
    countCatalogWrites (deleteCatalogSync (HttpOutcome.err notFound404) (fun _ => none)
      (Except.ok { contentSha := "s" }) "x").2 = 0 ∧
    (uploadCatalogSync (HttpOutcome.ok sampleCatalogFile) (fun _ => some sampleCatalog)
      (Except.error JSError.other) sampleEntryA).1 = Except.error JSError.other :=
  ⟨((catalog_sync_single_fetch_single_write (HttpOutcome.err notFound404) (fun _ => none)
      (Except.ok { contentSha := "s" }) sampleEntryA "x").2.2.2.1 rfl).1 rfl,
   ((catalog_sync_single_fetch_single_write (HttpOutcome.ok sampleCatalogFile)
      (fun _ => some sampleCatalog) (Except.error JSError.other) sampleEntryA "x"
      ).2.2.2.2.2.2.1 JSError.other (some sampleCatalogFile) rfl rfl).1⟩
